import Mathlib

/-!
Verification of the macrostrat-python-libraries statement-execution core.

Source material:
* `src/utils/macrostrat/utils/timer.py` — the `Timer` instrumentation module,
  embedded directly below (`Timing`, `Timer`, the ambient `code_timer`
  context variable, `add_step`, `server_timings`, `context`).
* `src/database/test_database.py` — the test oracle for the database layer.
  The database implementation itself (`macrostrat.database`: `run_sql`,
  `infer_is_sql_text`, placeholder analysis, execution policies) is not part
  of the sources; those components are modelled from the specification, with
  the test oracle pinning down behaviour where the spec text is ambiguous.

`perf_counter()` readings are modelled as exact rationals supplied as
explicit arguments; the Python float arithmetic itself is not modelled.
-/

/-- One timing record: the `Timing` pydantic model of `timer.py`
(`name`, `delta`, `total`, `time`). -/
structure Timing where
  name : String
  delta : ℚ
  total : ℚ
  time : ℚ
deriving DecidableEq

/-- Placeholder record returned by `getLastD`/`headD` where Python would
raise `IndexError` (indexing `timings[-1]` or `timings[0]` on an empty
list). Every timer built by `Timer.init` has a nonempty `timings` list
and all operations only append, so this value is never produced from a
reachable timer state. -/
def dummyTiming : Timing := ⟨"start", 0, 0, 0⟩

/-- The `Timer` class of `timer.py`: its per-instance state is the ordered
list of timing records `self.timings`. -/
structure Timer where
  timings : List Timing
deriving DecidableEq

/-- `Timer.__init__`:
`self.timings = [Timing(name="start", delta=0, total=0, time=perf_counter())]`.
The `perf_counter()` reading is the argument `t0`. -/
def Timer.init (t0 : ℚ) : Timer :=
  ⟨[⟨"start", 0, 0, t0⟩]⟩

/-- `Timer._add_step(name)`: reads the last record (`self.timings[-1]`) and
the first record (`self.timings[0]`), takes the current reading `t`
(`perf_counter()`), and appends
`Timing(name, delta=t - last.time, total=t - first.time, time=t)`. -/
def Timer.addStepAt (tm : Timer) (name : String) (t : ℚ) : Timer :=
  let last := tm.timings.getLastD dummyTiming
  let first := tm.timings.headD dummyTiming
  ⟨tm.timings ++ [⟨name, t - last.time, t - first.time, t⟩]⟩

/-- Python's `round` to the nearest integer with ties to even, computed on
the numerator and denominator of the rational so that it evaluates inside
the kernel. -/
def roundHalfEven (q : ℚ) : ℤ :=
  let f := Int.fdiv q.num q.den
  let rho := q.num - f * q.den
  if 2 * rho < (q.den : ℤ) then f
  else if (q.den : ℤ) < 2 * rho then f + 1
  else if f % 2 = 0 then f else f + 1

/-- Renders `round(q, 1)` the way a one-decimal Python float formats
(always one fractional digit, e.g. `500.0`, `1.5`, `-0.5`). -/
def fmtMs (q : ℚ) : String :=
  let n := roundHalfEven (q * 10)
  let sign := if n < 0 then "-" else ""
  sign ++ toString (n.natAbs / 10) ++ "." ++ toString (n.natAbs % 10)

/-- One intermediate entry of `Timer.server_timings`:
`f"{t.name};dur={round(t.delta*1000, 1)}"`. -/
def fmtEntry (t : Timing) : String :=
  t.name ++ ";dur=" ++ fmtMs (t.delta * 1000)

/-- `Timer.server_timings(self)`: appends an `end` step (`self._add_step("end")`,
with current reading `t`), renders `timings[1:-1]` as `name;dur=` entries,
appends `f"total;dur={round(self.timings[-1].total*1000, 1)}"`, and joins with
`", "`. Returns the timer after the `end` step together with the header. -/
def Timer.server_timings (tm : Timer) (t : ℚ) : Timer × String :=
  let tm2 := tm.addStepAt "end" t
  let mid := (tm2.timings.drop 1).dropLast
  let entries := mid.map fmtEntry ++
    ["total;dur=" ++ fmtMs ((tm2.timings.getLastD dummyTiming).total * 1000)]
  (tm2, String.intercalate ", " entries)

/- The ambient `code_timer` `ContextVar` (default `None`) is modelled as
explicit state of type `Option Timer` threaded through the operations. -/

/-- `Timer.add_step(name)` (classmethod): `timer = code_timer.get()`;
if `timer is None` the call returns immediately, otherwise
`timer._add_step(name)` runs on the ambient timer. The updated ambient
state is returned. -/
def Timer.add_step (amb : Option Timer) (name : String) (t : ℚ) : Option Timer :=
  match amb with
  | none => none
  | some tm => some (tm.addStepAt name t)

/-- A `contextvars` reset token: `code_timer.set(v)` returns a token storing
the value the variable had at the time of the call. -/
structure ResetToken where
  old : Option Timer
deriving DecidableEq

/-- `code_timer.set(v)`: returns the reset token and the new variable value. -/
def codeTimerSet (cur : Option Timer) (v : Timer) : ResetToken × Option Timer :=
  (⟨cur⟩, some v)

/-- `code_timer.reset(token)`: restores the value recorded in the token,
whatever the variable currently holds. -/
def codeTimerReset (tok : ResetToken) (_cur : Option Timer) : Option Timer :=
  tok.old

/-- `Timer.context(self)` (the `@contextmanager` generator):
`token = code_timer.set(self)`, `yield self`, and in the `finally` block
`code_timer.reset(token)`. The enclosed body is modelled as a state
transformer on the ambient variable that either returns a value or raises
(`Except.error`). The result triple is: the body's outcome, the ambient
variable as the body left it (for a body that interacts with the session
only through `Timer.add_step`, this is the session object at scope exit),
and the ambient variable after the `finally` reset. Because the reset is
in `finally`, it runs on the exceptional exit path as well. -/
def Timer.contextRun (tm : Timer) (amb : Option Timer)
    (body : Option Timer → Except ε α × Option Timer) :
    Except ε α × Option Timer × Option Timer :=
  let tokAmb := codeTimerSet amb tm
  let resAmb := body tokAmb.2
  (resAmb.1, resAmb.2, codeTimerReset tokAmb.1 resAmb.2)

/-- Timer states reachable by the module's own operations: a fresh timer,
or the result of `_add_step` / `server_timings` on a reachable timer. -/
inductive Timer.Reachable : Timer → Prop
  | init (t0 : ℚ) : Timer.Reachable (Timer.init t0)
  | step {tm : Timer} (name : String) (t : ℚ) :
      Timer.Reachable tm → Timer.Reachable (tm.addStepAt name t)
  | render {tm : Timer} (t : ℚ) :
      Timer.Reachable tm → Timer.Reachable (tm.server_timings t).1

/- Database layer. The implementation (macrostrat.database) is not under
`src/`; only its test oracle `src/database/test_database.py` is. The
components below are therefore modelled from the specification. -/

/-- Code-point helpers: a character legal inside an identifier
(letter, digit or underscore). -/
def isIdentChar (c : Char) : Bool :=
  decide ((48 ≤ c.toNat ∧ c.toNat ≤ 57) ∨ (65 ≤ c.toNat ∧ c.toNat ≤ 90) ∨
    (97 ≤ c.toNat ∧ c.toNat ≤ 122) ∨ c.toNat = 95)

/-- A character legal at the start of an identifier (letter or underscore). -/
def isIdentStartChar (c : Char) : Bool :=
  decide ((65 ≤ c.toNat ∧ c.toNat ≤ 90) ∨ (97 ≤ c.toNat ∧ c.toNat ≤ 122) ∨
    c.toNat = 95)

/-- The single-quote character. -/
def squote : Char := '\''

/-- The dollar character. -/
def dollar : Char := '$'

/-- Whether `p` is an initial segment of `l` (character-exact). -/
def startsWithChars : List Char → List Char → Bool
  | [], _ => true
  | _ :: _, [] => false
  | p :: ps, c :: cs => p == c && startsWithChars ps cs

/-- Read a dollar-quote tag after an opening `$`: zero or more identifier
characters followed by another `$`. Returns the tag and the remaining
input, or `none` when the `$` does not open a dollar-quote delimiter. -/
def readDollarTag : List Char → Option (List Char × List Char)
  | [] => none
  | c :: cs =>
    if c == dollar then some ([], cs)
    else if isIdentChar c then
      match readDollarTag cs with
      | some (tag, rest) => some (c :: tag, rest)
      | none => none
    else none

/-- After `%(` was read: recognise `name)s` — the rest of a
`%(name)s` server-style placeholder. Returns the remaining input on
success. -/
def readNamedServer (cs : List Char) : Option (List Char) :=
  let nm := cs.takeWhile isIdentChar
  let rest := cs.dropWhile isIdentChar
  if nm.isEmpty then none
  else
    match rest with
    | ')' :: 's' :: rest2 => some rest2
    | _ => none

/-- Lexer mode: ordinary SQL, inside a `'...'` string literal, or inside a
dollar-quoted block with the given tag. -/
inductive ScanMode
  | normal
  | inStringLit
  | inDollar (tag : List Char)
deriving DecidableEq

/-- What the placeholder scan of a statement text collects: the names of
client-style `:name` placeholders, the number of server-style placeholder
shapes (`%s`, `%(name)s`), and the number of bare `%` occurrences (percent
signs that are literal content rather than a recognised placeholder shape
— including every `%` inside a dollar-quoted span). -/
structure ScanResult where
  clientNames : List String
  serverCount : Nat
  bareCount : Nat
deriving DecidableEq

/-- Modelled from the spec: the lexical scan underlying the
`PlaceholderAnalyzer` (spec section 4.2); the Python implementation in
`macrostrat.database` is not under `src/`. Tracks single-quoted strings
and dollar-quoted blocks (`$tag$ ... $tag$`, tag possibly empty).
Outside both: `:name` not preceded by another colon is a client-style
named placeholder; `%s` and `%(name)s` are server-style shapes; any
other `%` is bare. Inside a dollar-quoted span every `%` is literal
content, never a placeholder, hence counted as bare. The fuel argument
only bounds recursion; one unit is spent per step and every step consumes
at least one character, so an initial fuel equal to the input length is
never exhausted. -/
def scan : Nat → ScanMode → List Char → ScanResult → ScanResult
  | 0, _, _, acc => acc
  | _ + 1, _, [], acc => acc
  | fuel + 1, .normal, c :: cs, acc =>
    if c == squote then scan fuel .inStringLit cs acc
    else if c == dollar then
      match readDollarTag cs with
      | some (tag, rest) => scan fuel (.inDollar tag) rest acc
      | none => scan fuel .normal cs acc
    else if c == '%' then
      match cs with
      | 's' :: rest => scan fuel .normal rest
          { acc with serverCount := acc.serverCount + 1 }
      | '(' :: rest =>
        match readNamedServer rest with
        | some rest2 => scan fuel .normal rest2
            { acc with serverCount := acc.serverCount + 1 }
        | none => scan fuel .normal cs
            { acc with bareCount := acc.bareCount + 1 }
      | _ => scan fuel .normal cs
          { acc with bareCount := acc.bareCount + 1 }
    else if c == ':' then
      match cs with
      | ':' :: rest => scan fuel .normal (rest.dropWhile isIdentChar) acc
      | d :: rest =>
        if isIdentStartChar d then
          scan fuel .normal (rest.dropWhile isIdentChar)
            { acc with clientNames :=
                acc.clientNames ++ [String.mk (d :: rest.takeWhile isIdentChar)] }
        else scan fuel .normal cs acc
      | [] => acc
    else scan fuel .normal cs acc
  | fuel + 1, .inStringLit, c :: cs, acc =>
    if c == squote then scan fuel .normal cs acc
    else scan fuel .inStringLit cs acc
  | fuel + 1, .inDollar tag, c :: cs, acc =>
    if c == dollar && startsWithChars (tag ++ [dollar]) cs then
      scan fuel .normal (cs.drop (tag.length + 1)) acc
    else if c == '%' then
      scan fuel (.inDollar tag) cs { acc with bareCount := acc.bareCount + 1 }
    else scan fuel (.inDollar tag) cs acc

/-- Scan a whole statement text. -/
def scanText (s : String) : ScanResult :=
  scan s.length .normal s.data ⟨[], 0, 0⟩

/-- The client placeholder style of a profile (spec section 3):
named (`:name`), positional, or none. Positional client placeholders have
no concrete syntax in the spec, so the scan never produces them. -/
inductive ClientStyle
  | named
  | positional
  | noClient
deriving DecidableEq

/-- `PlaceholderProfile` (spec section 3). -/
structure PlaceholderProfile where
  clientStyle : ClientStyle
  hasServerPercent : Bool
  ambiguous : Bool
deriving DecidableEq

/-- Modelled from the spec: `analyze(text, serverBindsHint)` of the
`PlaceholderAnalyzer` (spec section 4.2); the Python implementation in
`macrostrat.database` is not under `src/`. Resolution policy: an
explicitly supplied hint is trusted and ambiguity detection for percent
signs is skipped; with no hint, any bare `%` — literal percent content,
including every `%` inside a dollar-quoted span — makes the profile
ambiguous. This matches the repository's own oracle
`test_server_parameters_function_def`, which requires the dollar-quoted
function body to raise when no hint is given and to execute cleanly with
`has_server_binds=False`. -/
def analyze (text : String) (hint : Option Bool) : PlaceholderProfile :=
  let r := scanText text
  { clientStyle := if r.clientNames.isEmpty then .noClient else .named
    hasServerPercent :=
      match hint with
      | some b => b
      | none => r.serverCount != 0
    ambiguous :=
      match hint with
      | some _ => false
      | none => r.bareCount != 0 }

/-- Backend error classification (spec section 7): the backend's own kinds
are preserved; `queryCancelled` is the distinguished cancellation kind. -/
inductive BackendErrorKind
  | undefinedObject
  | syntaxError
  | queryCancelled
  | otherKind
deriving DecidableEq

/-- Errors an execution call can raise (spec section 7). -/
inductive ExecError
  | parameterAmbiguity
  | backend (kind : BackendErrorKind)
deriving DecidableEq

/-- Modelled from the spec: the fail-fast ambiguity gate of execution
(spec section 4.2): when the profile is ambiguous the call fails with
`ParameterAmbiguityError` before anything reaches the backend, regardless
of policy. -/
def ambiguityGate (text : String) (hint : Option Bool) : Except ExecError Unit :=
  match (analyze text hint).ambiguous with
  | true => .error .parameterAmbiguity
  | false => .ok ()

/-- Modelled from the spec: `run_sql` under the default `Silent` policy
(spec sections 4.3 and 4.4); the Python implementation is not under
`src/`. The ambiguity gate runs first (always fatal); then only the
parameters whose keys occur as client-style placeholders are bound —
extra keys are filtered out, not an error; backend failures are logged
and swallowed under `Silent`, so the call itself returns normally. The
returned value models what is submitted to the external backend:
statement text plus bound parameters. -/
def run_sql_silent (text : String) (hint : Option Bool)
    (params : List (String × String)) :
    Except ExecError (String × List (String × String)) :=
  match ambiguityGate text hint with
  | .error e => .error e
  | .ok _ => .ok (text, params.filter
      (fun p => (scanText text).clientNames.contains p.1))

/-- `ExecutionPolicy` (spec section 3). -/
inductive ExecutionPolicy
  | silent
  | warnDeprecated
  | strict
deriving DecidableEq

/-- Modelled from the spec: policy resolution from the two flag surface
(spec sections 4.3 and 6): the legacy `stop_on_error` flag selects
`WarnDeprecated`, the modern `raise_errors` flag selects `Strict`, and
neither flag selects `Silent`. -/
def ExecutionPolicy.resolve (stopOnError raiseErrors : Bool) : ExecutionPolicy :=
  if stopOnError then .warnDeprecated
  else if raiseErrors then .strict
  else .silent

/-- Advisory notices a call can emit (spec section 7): the deprecation
notice of the legacy flag. -/
inductive Notice
  | deprecation
deriving DecidableEq

/-- Modelled from the spec: execution of one statement under a policy
(spec sections 4.3 and 7), with the backend outcome abstracted as an
`Except` supplied by the external connection handle. Returns the notices
emitted during the call together with the call's result: `Strict`
propagates the backend error with its classification preserved;
`WarnDeprecated` behaves the same but additionally emits the deprecation
notice, once per call, whether or not the statement succeeds; `Silent`
swallows backend failures and returns an empty result. -/
def runWithPolicy (policy : ExecutionPolicy)
    (backend : Except BackendErrorKind (List String)) :
    List Notice × Except ExecError (List String) :=
  match policy with
  | .strict =>
      ([], match backend with
        | .ok rows => .ok rows
        | .error k => .error (.backend k))
  | .warnDeprecated =>
      ([Notice.deprecation], match backend with
        | .ok rows => .ok rows
        | .error k => .error (.backend k))
  | .silent =>
      ([], match backend with
        | .ok rows => .ok rows
        | .error _ => .ok [])

/-- How a statement source is classified (spec section 4.1). -/
inductive SourceKind
  | inlineText
  | bytesKind
  | filePath
deriving DecidableEq

/-- A value handed to the classifier: a string or a byte buffer. -/
inductive SqlInput
  | str (s : String)
  | bytes (bs : List Nat)
deriving DecidableEq

/-- SQL keywords whose presence marks a string as inline SQL
(spec section 4.1 names `SELECT`, `INSERT`, `CREATE`, "etc.",
case-insensitive). -/
def sqlKeywords : List String :=
  ["SELECT", "INSERT", "CREATE", "UPDATE", "DELETE", "DROP", "ALTER",
   "TRUNCATE", "GRANT"]

/-- Lower-case a Latin letter code point. -/
def lowerCode (n : Nat) : Nat := if 65 ≤ n ∧ n ≤ 90 then n + 32 else n

/-- Case-insensitive character equality on code points. -/
def charEqCI (a b : Char) : Bool :=
  decide (lowerCode a.toNat = lowerCode b.toNat)

/-- Whether `p` is a case-insensitive initial segment of the second list. -/
def startsWithCI : List Char → List Char → Bool
  | [], _ => true
  | _ :: _, [] => false
  | p :: ps, c :: cs => charEqCI p c && startsWithCI ps cs

/-- Whether `pat` occurs case-insensitively anywhere in the list. -/
def containsCI (pat : List Char) : List Char → Bool
  | [] => pat.isEmpty
  | c :: cs => startsWithCI pat (c :: cs) || containsCI pat cs

/-- Whether the string contains any SQL keyword, case-insensitively. -/
def containsKeyword (s : String) : Bool :=
  sqlKeywords.any (fun k => containsCI k.data s.data)

/-- Space, newline, tab or carriage return. -/
def isSpaceChar (c : Char) : Bool :=
  decide (c.toNat = 32 ∨ c.toNat = 10 ∨ c.toNat = 9 ∨ c.toNat = 13)

/-- Whether the string contains whitespace. -/
def hasWhitespace (s : String) : Bool := s.data.any isSpaceChar

/-- Whether the string contains a newline. -/
def hasNewline (s : String) : Bool := s.data.any (fun c => decide (c.toNat = 10))

/-- Whether `suf` is a suffix of `l` (character-exact). -/
def endsWithChars (suf l : List Char) : Bool :=
  startsWithChars suf.reverse l.reverse

/-- Modelled from the spec: the `InputClassifier` for string input
(spec section 4.1); the Python `infer_is_sql_text` lives in
`macrostrat.database.utils`, which is not under `src/`. A string is a
`FilePath` only when it contains no SQL keyword, no whitespace, ends in
the known SQL extension `.sql`, and is short enough to plausibly be a
path; the spec fixes no length bound, 255 characters is used here.
Otherwise it is `InlineText`. -/
def classifyStr (s : String) : SourceKind :=
  if containsKeyword s = false ∧ hasWhitespace s = false ∧
      endsWithChars ".sql".data s.data = true ∧ s.length ≤ 255 then
    .filePath
  else .inlineText

/-- Modelled from the spec: `classify(value)` (spec section 4.1):
byte-sequence input is always `Bytes`; strings go through `classifyStr`. -/
def classify : SqlInput → SourceKind
  | .bytes _ => .bytesKind
  | .str s => classifyStr s

/-- Modelled from the spec: `infer_is_sql_text` of
`macrostrat.database.utils` (not under `src/`), as exercised by
`test_sql_text_inference*`: true exactly when the input is not classified
as a file path (bytes are always treated as SQL text). -/
def infer_is_sql_text (v : SqlInput) : Bool :=
  match classify v with
  | .filePath => false
  | _ => true

/-- The statement of `test_server_parameters_function_def` in
`src/database/test_database.py`: a `plpgsql` function definition whose
only `%` characters sit inside the `$$ ... $$` dollar-quoted body. -/
def functionDefSQL : String :=
  "\n    CREATE OR REPLACE FUNCTION throw_error()\n    RETURNS void AS $$\n    BEGIN\n    IF true THEN\n        RAISE NOTICE 'prop %s, pattern %, schema %', prop, pattern, schema->'patternProperties'->pattern;\n    END IF;\n    END;\n    $$ LANGUAGE plpgsql;\n    "

/- Helper lemmas (shared by several claim theorems). -/

/-- Appending on the right of a nonempty list keeps its optional head. -/
theorem head_append_left {α : Type} (l l2 : List α) (h : l ≠ []) :
    (l ++ l2).head? = l.head? := by
  cases l with
  | nil => exact absurd rfl h
  | cons a as => rfl

/-- `getLastD` of a list with one element appended is that element. -/
theorem getLastD_append_single {α : Type} (l : List α) (x : α) :
    ∀ d, (l ++ [x]).getLastD d = x := by
  intro d
  simp [List.getLastD_eq_getLast?]

/-- The `cons`-normalised form of `getLastD_append_single`. -/
theorem getLastD_cons_append_single {α : Type} (a : α) (l : List α) (x d : α) :
    (a :: (l ++ [x])).getLastD d = x := by
  rw [← List.cons_append]
  exact getLastD_append_single _ _ _

/-- `dropLast` removes exactly a single appended element. -/
theorem dropLast_append_single {α : Type} (l : List α) (x : α) :
    (l ++ [x]).dropLast = l := by
  simp

/-- A list with one element appended is nonempty. -/
theorem append_single_ne_nil {α : Type} (l : List α) (x : α) :
    l ++ [x] ≠ [] := by
  simp

set_option maxRecDepth 400000

/-- Claim C2 (counterexample): the scoped session (`Timer.context`) does
not itself append an `end` step. Concretely: a fresh timer entered and
exited with a body that adds no step leaves the session's timing sequence
exactly `["start"]` — no record named `end` is ever appended by the
context manager on this exit path. -/
theorem context_appends_no_end_step :
    (Timer.contextRun (Timer.init 0) none
      (fun a => ((Except.ok () : Except Unit Unit), a))).2.1 =
        some (Timer.init 0) ∧
    ((Timer.init 0).timings.map Timing.name) = ["start"] :=
  ⟨rfl, by decide⟩

/-- Claim C2 (amended): `Timer.context` appends nothing to the session's
timing sequence on any exit path — normal or exceptional, the ambient
session is exactly as the body left it — and the final `end` record is
appended when `Timer.server_timings` is called on the session, which
always appends exactly one record named `end`. -/
theorem end_step_added_by_server_timings_not_context {ε α : Type}
    (tm : Timer) (amb : Option Timer)
    (body : Option Timer → Except ε α × Option Timer) (t : ℚ) :
    (Timer.contextRun tm amb body).2.1 = (body (some tm)).2 ∧
    ∃ rec : Timing, rec.name = "end" ∧
      ((tm.server_timings t).1).timings = tm.timings ++ [rec] :=
  ⟨rfl, ⟨_, rfl, rfl⟩⟩

/-- Claim C3: for every timer session (nonempty timing sequence), the
rendered header is the comma-separated list holding one `name;dur=<ms,
one decimal>` entry per intermediate step (every record after the initial
`start`) whose final entry is `total;dur=<ms>` with the total elapsed
time; and rendering appends the `end` record to the session. -/
theorem server_timings_format (tm : Timer) (t : ℚ) (h : tm.timings ≠ []) :
    (tm.server_timings t).2 =
      String.intercalate ", "
        ((tm.timings.drop 1).map fmtEntry ++
          ["total;dur=" ++
            fmtMs ((t - (tm.timings.headD dummyTiming).time) * 1000)]) ∧
    (tm.server_timings t).1.timings =
      tm.timings ++
        [⟨"end", t - (tm.timings.getLastD dummyTiming).time,
          t - (tm.timings.headD dummyTiming).time, t⟩] := by
  obtain ⟨tl⟩ := tm
  cases tl with
  | nil => exact absurd rfl h
  | cons a rest =>
      constructor
      · simp only [Timer.server_timings, Timer.addStepAt, List.headD_cons,
          List.cons_append, List.drop_one, List.tail_cons]
        rw [dropLast_append_single, getLastD_cons_append_single]
      · rfl

/-- Claim C3 (witness): the format theorem instantiated at a fresh timer
started at reading `0` and rendered at reading `1`. -/
theorem server_timings_format_witness :
    ((Timer.init 0).server_timings 1).2 =
      String.intercalate ", "
        (((Timer.init 0).timings.drop 1).map fmtEntry ++
          ["total;dur=" ++
            fmtMs ((1 - ((Timer.init 0).timings.headD dummyTiming).time) * 1000)]) ∧
    ((Timer.init 0).server_timings 1).1.timings =
      (Timer.init 0).timings ++
        [⟨"end", 1 - ((Timer.init 0).timings.getLastD dummyTiming).time,
          1 - ((Timer.init 0).timings.headD dummyTiming).time, 1⟩] :=
  server_timings_format (Timer.init 0) 1 (by simp [Timer.init])

/-- Claim C4: `Timer.add_step` with no ambient session is a no-op — it
returns without error and touches no session; with an ambient session it
appends exactly one timing record, carrying the requested name, to that
session. -/
theorem add_step_noop_without_session (name : String) (t : ℚ) :
    Timer.add_step none name t = none ∧
    ∀ tm : Timer, ∃ rec : Timing, rec.name = name ∧
      Timer.add_step (some tm) name t = some ⟨tm.timings ++ [rec]⟩ :=
  ⟨rfl, fun tm => ⟨_, rfl, rfl⟩⟩

/-- Claim C6: every reachable timer state has a nonempty timing sequence
whose first entry is the synthetic `start` record with zero delta and
zero total, and both `_add_step` and `server_timings` only append one
record after the existing ones. -/
theorem timer_start_invariant (tm : Timer) (h : Timer.Reachable tm) :
    tm.timings ≠ [] ∧
    (∃ t0 : ℚ, tm.timings.head? = some ⟨"start", 0, 0, t0⟩) ∧
    (∀ name t, ∃ rec : Timing,
      (tm.addStepAt name t).timings = tm.timings ++ [rec]) ∧
    (∀ t, ∃ rec : Timing,
      ((tm.server_timings t).1).timings = tm.timings ++ [rec]) := by
  have happ : ∀ (tm2 : Timer) (name : String) (t : ℚ),
      (tm2.addStepAt name t).timings = tm2.timings ++
        [⟨name, t - (tm2.timings.getLastD dummyTiming).time,
          t - (tm2.timings.headD dummyTiming).time, t⟩] := fun _ _ _ => rfl
  induction h with
  | init t0 =>
      exact ⟨by simp [Timer.init], ⟨t0, rfl⟩,
        fun name t => ⟨_, happ _ name t⟩, fun t => ⟨_, happ _ "end" t⟩⟩
  | step name t hr ih =>
      obtain ⟨hne, ⟨t0, h0⟩, -, -⟩ := ih
      refine ⟨?_, ⟨t0, ?_⟩, fun nm tt => ⟨_, happ _ nm tt⟩,
        fun tt => ⟨_, happ _ "end" tt⟩⟩
      · rw [happ]; exact append_single_ne_nil _ _
      · rw [happ, head_append_left _ _ hne, h0]
  | render t hr ih =>
      obtain ⟨hne, ⟨t0, h0⟩, -, -⟩ := ih
      refine ⟨?_, ⟨t0, ?_⟩, fun nm tt => ⟨_, happ _ nm tt⟩,
        fun tt => ⟨_, happ _ "end" tt⟩⟩
      · show (Timer.addStepAt _ "end" t).timings ≠ []
        rw [happ]; exact append_single_ne_nil _ _
      · show (Timer.addStepAt _ "end" t).timings.head? = _
        rw [happ, head_append_left _ _ hne, h0]

/-- Claim C6 (witness): the invariant instantiated at a fresh timer. -/
theorem timer_start_invariant_witness :
    (Timer.init 0).timings ≠ [] ∧
    (∃ t0 : ℚ, (Timer.init 0).timings.head? = some ⟨"start", 0, 0, t0⟩) ∧
    (∀ name t, ∃ rec : Timing,
      ((Timer.init 0).addStepAt name t).timings =
        (Timer.init 0).timings ++ [rec]) ∧
    (∀ t, ∃ rec : Timing,
      (((Timer.init 0).server_timings t).1).timings =
        (Timer.init 0).timings ++ [rec]) :=
  timer_start_invariant (Timer.init 0) (Timer.Reachable.init 0)

/-- Claim C10: entering `Timer.context` sets this timer as the ambient
session (the body observes `some tm`), and on every exit path — the
body returning normally or raising — the `finally` reset restores the
ambient variable to exactly its previous value `amb`. -/
theorem context_restores_ambient {ε α : Type}
    (tm : Timer) (amb : Option Timer)
    (body : Option Timer → Except ε α × Option Timer) :
    Timer.contextRun tm amb body =
      ((body (some tm)).1, (body (some tm)).2, amb) :=
  rfl

/-- Claim C1 (counterexample): the function-definition statement of
`test_server_parameters_function_def`, whose only `%` usage sits inside
the matched `$$ ... $$` span, is marked ambiguous when no serverBindsHint
is supplied, and execution fails with `ParameterAmbiguityError` — exactly
the raise the repository's own test demands on the hint-less path. -/
theorem function_def_no_hint_is_ambiguous :
    (analyze functionDefSQL none).ambiguous = true ∧
    ambiguityGate functionDefSQL none =
      Except.error ExecError.parameterAmbiguity :=
  ⟨by decide, rfl⟩

/-- Claim C1 (amended): when a serverBindsHint is supplied (either value)
the hint is trusted, the profile is never ambiguous, and execution cannot
fail with `ParameterAmbiguityError`; in particular the dollar-quoted
function definition executes cleanly with `has_server_binds=False`. With
no hint, its bare `%` content (literal even inside the dollar-quoted
span) leaves the statement ambiguous. -/
theorem analyze_hint_resolves_ambiguity :
    (∀ (text : String) (b : Bool),
      (analyze text (some b)).ambiguous = false ∧
      ambiguityGate text (some b) = Except.ok ()) ∧
    (analyze functionDefSQL (some false)).ambiguous = false ∧
    ambiguityGate functionDefSQL (some false) = Except.ok () ∧
    (analyze functionDefSQL none).ambiguous = true :=
  ⟨fun _ _ => ⟨rfl, rfl⟩, rfl, rfl, by decide⟩

/-- Claim C5: `classify` sends `"sample.sql"` to `FilePath` and
`"SELECT * FROM sample"` to `InlineText` (equivalently,
`infer_is_sql_text` is false on the former and true on the latter), and
no string containing a SQL keyword or a newline is ever classified as a
path. -/
theorem classify_spec :
    classify (SqlInput.str "sample.sql") = SourceKind.filePath ∧
    classify (SqlInput.str "SELECT * FROM sample") = SourceKind.inlineText ∧
    infer_is_sql_text (SqlInput.str "SELECT * FROM sample") = true ∧
    infer_is_sql_text (SqlInput.str "sample.sql") = false ∧
    ∀ s : String, (containsKeyword s = true ∨ hasNewline s = true) →
      classify (SqlInput.str s) ≠ SourceKind.filePath := by
  refine ⟨by decide, by decide, by decide, by decide, ?_⟩
  intro s hs hcontra
  have hcl : classifyStr s = SourceKind.filePath := hcontra
  by_cases hc : containsKeyword s = false ∧ hasWhitespace s = false ∧
      endsWithChars ".sql".data s.data = true ∧ s.length ≤ 255
  · obtain ⟨h1, h2, -, -⟩ := hc
    cases hs with
    | inl hk => rw [hk] at h1; exact Bool.noConfusion h1
    | inr hn =>
        have hwh : hasWhitespace s = true := by
          obtain ⟨c, hc1, hc2⟩ := List.any_eq_true.mp hn
          refine List.any_eq_true.mpr ⟨c, hc1, ?_⟩
          have h10 : c.toNat = 10 := of_decide_eq_true hc2
          exact decide_eq_true (Or.inr (Or.inl h10))
        rw [hwh] at h2; exact Bool.noConfusion h2
  · unfold classifyStr at hcl
    rw [if_neg hc] at hcl
    exact SourceKind.noConfusion hcl

/-- Claim C5 (witness): `"DROP.sql"` contains the keyword `DROP`, so it is
not a path even though it ends in `.sql`. -/
theorem classify_spec_witness :
    classify (SqlInput.str "DROP.sql") ≠ SourceKind.filePath :=
  classify_spec.2.2.2.2 "DROP.sql" (Or.inl (by decide))

/-- Claim C7: parameters whose keys do not occur as client-style
placeholders in the statement are ignored, never an error: execution under
the default `Silent` policy gives the same outcome with or without the
extra keys, and the test's concrete request — the `INSERT` with
`params={name, extraneous}` — succeeds with the extraneous key dropped. -/
theorem extraneous_params_ignored (text : String) (hint : Option Bool)
    (params junk : List (String × String))
    (hjunk : ∀ p ∈ junk, ((scanText text).clientNames.contains p.1) = false) :
    run_sql_silent text hint (params ++ junk) =
      run_sql_silent text hint params ∧
    run_sql_silent "INSERT INTO sample (name) VALUES (:name)" none
        [("name", "Test2"), ("extraneous", "TestA")] =
      Except.ok ("INSERT INTO sample (name) VALUES (:name)",
        [("name", "Test2")]) := by
  refine ⟨?_, rfl⟩
  have hfil : ∀ js : List (String × String),
      (∀ p ∈ js, ((scanText text).clientNames.contains p.1) = false) →
      js.filter (fun p => (scanText text).clientNames.contains p.1) = [] := by
    intro js
    induction js with
    | nil => intro hj; rfl
    | cons q qs ih =>
        intro hj
        have hq := hj q (List.mem_cons_self q qs)
        rw [List.filter_cons_of_neg]
        · exact ih (fun p hp => hj p (List.mem_cons_of_mem q hp))
        · intro hmem
          have hcq : (scanText text).clientNames.contains q.1 = true := by
            simpa using hmem
          rw [hq] at hcq
          exact Bool.noConfusion hcq
  unfold run_sql_silent
  cases ambiguityGate text hint with
  | error e => rfl
  | ok u => rw [List.filter_append, hfil junk hjunk, List.append_nil]

/-- Claim C7 (witness): the ignore theorem instantiated at the test's
`INSERT` request with the `extraneous` key as the junk suffix. -/
theorem extraneous_params_ignored_witness :
    run_sql_silent "INSERT INTO sample (name) VALUES (:name)" none
        ([("name", "Test2")] ++ [("extraneous", "TestA")]) =
      run_sql_silent "INSERT INTO sample (name) VALUES (:name)" none
        [("name", "Test2")] ∧
    run_sql_silent "INSERT INTO sample (name) VALUES (:name)" none
        [("name", "Test2"), ("extraneous", "TestA")] =
      Except.ok ("INSERT INTO sample (name) VALUES (:name)",
        [("name", "Test2")]) :=
  extraneous_params_ignored "INSERT INTO sample (name) VALUES (:name)" none
    [("name", "Test2")] [("extraneous", "TestA")] (by decide)

/-- Claim C8: under the legacy stop-on-error flag (`WarnDeprecated`
policy) a call emits exactly one deprecation notice — whether or not the
statement succeeds — and its result is identical to the `Strict` result;
a failing backend statement therefore raises the same typed backend error,
with its classification (e.g. undefined object) preserved. -/
theorem warn_deprecated_policy :
    (∀ backend : Except BackendErrorKind (List String),
      (runWithPolicy .warnDeprecated backend).1 = [Notice.deprecation] ∧
      (runWithPolicy .warnDeprecated backend).2 =
        (runWithPolicy .strict backend).2) ∧
    (∀ kind : BackendErrorKind,
      (runWithPolicy .warnDeprecated (.error kind)).2 =
        Except.error (ExecError.backend kind) ∧
      (runWithPolicy .strict (.error kind)).2 =
        Except.error (ExecError.backend kind)) ∧
    ExecutionPolicy.resolve true false = ExecutionPolicy.warnDeprecated :=
  ⟨fun _ => ⟨rfl, rfl⟩, fun _ => ⟨rfl, rfl⟩, rfl⟩
